import Mathlib

/-!
Verification of the Drive-to-GCS incremental synchronization service.

The source program queries the remote tree store (Drive) for the children of
a folder and mirrors changed files into a flat object store (GCS).  We embed
the data path shallowly:

* a snapshot of the remote tree is an inductive `DriveNode` of nodes carrying the
  metadata the code reads (`id`, `name`, `mimeType`, `modifiedTime`,
  `trashed`);
* ISO-8601 timestamps are modelled as naturals, since lexicographic order on
  the fixed-width ISO format used throughout the code coincides with
  chronological order;
* the fallible external calls (folder listing, file download, object upload)
  are modelled by a deterministic failure oracle `Env`; a thrown JavaScript
  error becomes an `Except.error`.
-/

/-- Metadata of one Drive node as returned by the files list endpoint
(fields `id,name,mimeType,modifiedTime` plus the `trashed` flag read by the
queries). -/
structure Item where
  id : String
  name : String
  mimeType : String
  modifiedTime : Nat
  trashed : Bool
deriving DecidableEq

/-- A snapshot of the remote tree: a node together with the children that a
listing of its id would return. -/
inductive DriveNode : Type where
  | node : Item → List DriveNode → DriveNode

def DriveNode.item : DriveNode → Item
  | .node i _ => i

def DriveNode.children : DriveNode → List DriveNode
  | .node _ cs => cs

/-- The accumulator `{ok, fail, folders}` returned by one walk invocation. -/
structure SyncStats where
  ok : Nat
  fail : Nat
  folders : Nat
deriving DecidableEq

/-- Deterministic failure oracle for the external stores: whether listing a
folder id throws, whether downloading a file id throws, and whether uploading
a given object name throws. -/
structure Env where
  listFails : String → Bool
  downloadFails : String → Bool
  uploadFails : String → Bool

/-- The mime type the code uses to recognize folders. -/
def folderMime : String := "application/vnd.google-apps.folder"

/-- One child passes the incremental query
`trashed = false and modifiedTime > modifiedSince`. -/
def passesFilter (since : Nat) (t : DriveNode) : Bool :=
  !t.item.trashed && since < t.item.modifiedTime

/-- The filtered listing used by the walk. -/
def filteredChildren (since : Nat) (cs : List DriveNode) : List DriveNode :=
  cs.filter (passesFilter since)

/-- The base listing `trashed = false` used by `isFolderEmpty`. -/
def nonTrashedChildren (cs : List DriveNode) : List DriveNode :=
  cs.filter (fun c => !c.item.trashed)

/-- `name.toLowerCase().endsWith('.pdf')` from the source, written over the
character list so that it evaluates inside the kernel; `.pdf` is already
lower case, so lowering the name alone is equivalent. -/
def lowerEndsWithPdf (name : String) : Bool :=
  List.isSuffixOf ".pdf".data (name.data.map Char.toLower)

/-- `buildObjectNameFromFile` from the source: append `.pdf` unless the name
is empty (falsy in JavaScript) or already ends in `.pdf` case-insensitively.
The `blob` parameter of the source function is unused there and dropped. -/
def buildObjectNameFromFile (name : String) : String :=
  if name ≠ "" && !(lowerEndsWithPdf name) then name ++ ".pdf" else name

instance {ε α : Type} [DecidableEq ε] [DecidableEq α] : DecidableEq (Except ε α) :=
  fun a b =>
    match a, b with
    | .error x, .error y => decidable_of_iff (x = y) (by simp)
    | .ok x, .ok y => decidable_of_iff (x = y) (by simp)
    | .error _, .ok _ => .isFalse (by simp)
    | .ok _, .error _ => .isFalse (by simp)

mutual

/-- `processFolderIncremental(folderId, prefix, token, modifiedSince)`.
Listing the invoking node can throw (propagated as `.error`).  If the
filtered listing is empty, `isFolderEmpty` re-lists the same folder id with
only `trashed = false` (the oracle is deterministic, so that second listing
cannot fail when the first succeeded) and on an empty result uploads the
zero-byte placeholder, catching a placeholder upload error as one failure.
Otherwise the item loop runs; the source iterates the filtered list, which we
express by iterating the children with the filter as a guard.  The result
also records the list of object names successfully written. -/
def processFolderIncremental (env : Env) (t : DriveNode) (pre : String) (since : Nat) :
    Except String (SyncStats × List String) :=
  match t with
  | .node i cs =>
    if env.listFails i.id then
      .error ("Drive list error :: " ++ i.id)
    else if (filteredChildren since cs).length = 0 then
      if (nonTrashedChildren cs).length = 0 then
        if env.uploadFails (pre ++ "__placeholder") then
          .ok (⟨0, 1, 0⟩, [])
        else
          .ok (⟨1, 0, 0⟩, [pre ++ "__placeholder"])
      else
        .ok (⟨0, 0, 0⟩, [])
    else
      processItems env cs pre since

/-- The `for (const item of items)` loop body.  A folder child increments
`folders` and recurses; the recursive call is not wrapped in try/catch in the
source, so its error aborts the loop.  A leaf child downloads and uploads
inside try/catch: any error there is counted as one failure and the loop
continues with the remaining siblings. -/
def processItems (env : Env) (items : List DriveNode) (pre : String) (since : Nat) :
    Except String (SyncStats × List String) :=
  match items with
  | [] => .ok (⟨0, 0, 0⟩, [])
  | c :: rest =>
    if passesFilter since c then
      if c.item.mimeType = folderMime then
        match processFolderIncremental env c (pre ++ c.item.name ++ "/") since with
        | .error e => .error e
        | .ok (sub, subW) =>
          match processItems env rest pre since with
          | .error e => .error e
          | .ok (restS, restW) =>
            .ok (⟨sub.ok + restS.ok, sub.fail + restS.fail,
                  1 + sub.folders + restS.folders⟩, subW ++ restW)
      else
        match processItems env rest pre since with
        | .error e => .error e
        | .ok (restS, restW) =>
          if env.downloadFails c.item.id then
            .ok (⟨restS.ok, 1 + restS.fail, restS.folders⟩, restW)
          else if env.uploadFails (pre ++ buildObjectNameFromFile c.item.name) then
            .ok (⟨restS.ok, 1 + restS.fail, restS.folders⟩, restW)
          else
            .ok (⟨1 + restS.ok, restS.fail, restS.folders⟩,
                 (pre ++ buildObjectNameFromFile c.item.name) :: restW)
    else
      processItems env rest pre since

end

/-!
Characterization of when the walk aborts (for the propagation-policy claim):
`walkListOk` mirrors the walk and records whether every folder listing the
walk performs succeeds.  Leaf downloads and uploads never appear here because
their errors are caught per item in the source.
-/

mutual

/-- All folder listings performed by `processFolderIncremental` on this node
succeed. -/
def walkListOk (env : Env) (t : DriveNode) (since : Nat) : Bool :=
  match t with
  | .node i cs =>
    !env.listFails i.id &&
      (if (filteredChildren since cs).length = 0 then true
       else itemsListOk env cs since)

/-- All folder listings performed by the item loop succeed. -/
def itemsListOk (env : Env) (items : List DriveNode) (since : Nat) : Bool :=
  match items with
  | [] => true
  | c :: rest =>
    if passesFilter since c then
      (if c.item.mimeType = folderMime then walkListOk env c since else true) &&
        itemsListOk env rest since
    else
      itemsListOk env rest since

end

/-- Rebase the upload-failure oracle under a path p: uploading key k
in the rebased oracle fails exactly when uploading p ++ k fails in the
original one.  Used to state that the derived keys depend on the path only
by concatenation. -/
def Env.rebase (env : Env) (p : String) : Env :=
  { env with uploadFails := fun k => env.uploadFails (p ++ k) }

/-- Prepend p to every successfully written key of a walk result. -/
def mapWrites (p : String) :
    Except String (SyncStats × List String) → Except String (SyncStats × List String)
  | .error e => .error e
  | .ok (s, ws) => .ok (s, ws.map (fun k => p ++ k))

/-!
The real-time webhook path of the enhanced service: the in-memory
deduplication set `processedChanges` with its `CHANGE_TTL` expiry, and
`processRealTimeChange`.  The `Set.add` / delayed `Set.delete` pair is
modelled by recording the admission time of each change id; a change id is
in the set at time `now` exactly when some admission happened at a time
`adm ≤ now` whose deletion timer `adm + CHANGE_TTL` has not fired yet.
-/

/-- `CHANGE_TTL = 300000` milliseconds (5 minutes). -/
def CHANGE_TTL : Nat := 300000

/-- `processedChanges.has(changeId)` at time `now`, for a set whose
admissions are recorded with their times. -/
def hasActive (st : List (String × Nat)) (now : Nat) (sig : String) : Bool :=
  st.any (fun e => e.1 == sig && e.2 ≤ now && now < e.2 + CHANGE_TTL)

/-- Result of `storage.bucket(..).file(..).delete()`: success, a 404
not-found error, or any other error. -/
inductive DeleteOutcome : Type where
  | ok
  | notFound
  | otherError
deriving DecidableEq

/-- Failure oracle for one `processRealTimeChange` invocation: whether the
metadata fetch for the file throws, the delete outcome per object key, and
whether download and upload throw. -/
structure RTEnv where
  fetchInfoOk : Bool
  deleteOutcome : String → DeleteOutcome
  downloadFails : Bool
  uploadFails : Bool

/-- Externally visible actions taken by `processRealTimeChange`:
a delete call on an object key, a completed upload of an object key, an
invocation of `processFolderIncremental` rooted at a folder (with
`since = new Date(0)`, the epoch floor), and publishing a retry message to
the Pub/Sub topic from the catch block. -/
inductive RTAction : Type where
  | deleteObject (key : String)
  | uploadObject (key : String)
  | walkFolder (folderId : String) (pre : String)
  | enqueueRetry
deriving DecidableEq

/-- `processRealTimeChange(changeId, fileId, resourceState)` given the file
snapshot the Drive metadata fetch would return.  Returns the action trace
and the updated dedup set.  An empty trace means the call was suppressed as
a duplicate.  The admission (`add` plus scheduled delete) happens before the
try block, so the state update is independent of the processing outcome.
A trashed snapshot attempts the delete keyed by `file.name`; a 404 outcome
is only logged, any other delete error reaches the catch block, which
publishes a retry message.  A non-trashed folder invokes the walk rooted at
the file with its bare name as path; a non-trashed leaf downloads and
uploads under the key `file.name`, and any thrown error reaches the catch
block. -/
def processRealTimeChange (st : List (String × Nat)) (now : Nat) (changeId : String)
    (env : RTEnv) (file : Item) : List RTAction × List (String × Nat) :=
  if hasActive st now changeId then
    ([], st)
  else
    let st1 := (changeId, now) :: st
    if !env.fetchInfoOk then
      ([.enqueueRetry], st1)
    else if file.trashed then
      match env.deleteOutcome file.name with
      | .ok => ([.deleteObject file.name], st1)
      | .notFound => ([.deleteObject file.name], st1)
      | .otherError => ([.deleteObject file.name, .enqueueRetry], st1)
    else if file.mimeType = folderMime then
      ([.walkFolder file.id (file.name ++ "/")], st1)
    else if env.downloadFails then
      ([.enqueueRetry], st1)
    else if env.uploadFails then
      ([.enqueueRetry], st1)
    else
      ([.uploadObject file.name], st1)

/-!
The polling reconciler: one tick of the `setInterval` body of
`startDrivePolling`.  `tStart` is `Date.now()` observed when the tick
computes its lookback clamp and `tEnd` is `Date.now()` observed at the
watermark commit after the walk returned; the walk runs between the two.
-/

/-- The five-minute lookback used by the polling loop. -/
def POLL_LOOKBACK : Nat := 300000

/-- The effective `modifiedSince` of a polling tick: the later of the
persisted watermark and `tStart - 5 minutes`
(`lastRun < fiveMinutesAgo ? fiveMinutesAgo : lastRun`). -/
def pollSince (w tStart : Nat) : Nat :=
  if w < tStart - POLL_LOOKBACK then tStart - POLL_LOOKBACK else w

/-- One polling tick: clamp `modifiedSince` to the later of the persisted
watermark and `tStart - 5 minutes`, run the walk, and if it returned
`ok > 0` persist `tEnd` (the `new Date()` taken at the commit, after the
walk) as the new watermark; otherwise (including when the walk throws,
which the catch block swallows) leave the watermark alone.  Returns the
persisted watermark after the tick. -/
def pollingTick (env : Env) (t : DriveNode) (w tStart tEnd : Nat) : Nat :=
  match processFolderIncremental env t "" (pollSince w tStart) with
  | .error _ => w
  | .ok (stats, _) => if stats.ok > 0 then tEnd else w

/-!
The inbound webhook boundary: the `/sync/webhook` handler of the enhanced
service.  Missing headers arrive as `none`; JavaScript falsiness of a header
string also covers the empty string.
-/

/-- JavaScript falsiness of an optional header value. -/
def headerFalsy : Option String → Bool
  | none => true
  | some s => s.isEmpty

/-- Observable events of one handler invocation, in order: the HTTP
response with its status, and the deferred background processing scheduled
via `setTimeout` carrying the identifying headers it will process. -/
inductive WebhookEvent : Type where
  | respond (status : Nat)
  | scheduleProcessing (resourceId resourceState : String)
deriving DecidableEq

/-- The `/sync/webhook` handler: reject with 400 when the resource id or the
resource state header is missing (no processing scheduled); otherwise
respond 200 first and schedule the background processing after the
acknowledgement. -/
def webhookPost (resourceId resourceState : Option String) : List WebhookEvent :=
  if headerFalsy resourceId || headerFalsy resourceState then
    [.respond 400]
  else
    [.respond 200,
     .scheduleProcessing (resourceId.getD "") (resourceState.getD "")]

/-!
The watermark store read of the enhanced service.
-/

/-- Outcome of the Firestore `get` on the `last_sync` document: a thrown
error, a missing document, or a document with its `timestamp` field. -/
def EPOCH_FLOOR : String := "2000-01-01T00:00:00.000Z"

/-- `getLastSyncTime`: return the stored timestamp when the document
exists; fall back to the epoch floor when it does not; and catch a thrown
read error, also returning the epoch floor. -/
def getLastSyncTime (read : Except String (Option String)) : String :=
  match read with
  | .ok (some ts) => ts
  | .ok none => EPOCH_FLOOR
  | .error _ => EPOCH_FLOOR

/-- Whether a walk invocation returned stats rather than propagating a
thrown error. -/
def isOkE : Except String (SyncStats × List String) → Bool
  | .ok _ => true
  | .error _ => false

/-- Processing one leaf item throws: its download fails, or the upload of
its derived object name fails. -/
def leafFails (env : Env) (pre : String) (c : DriveNode) : Bool :=
  env.downloadFails c.item.id ||
    env.uploadFails (pre ++ buildObjectNameFromFile c.item.name)

/-- The object names a run of the item loop writes for a filtered listing of
leaves: one derived key per non-failing item, in listing order. -/
def leafWrites (env : Env) (pre : String) (items : List DriveNode) : List String :=
  items.filterMap
    (fun c => if leafFails env pre c then none
              else some (pre ++ buildObjectNameFromFile c.item.name))

mutual

/-- The walk returns stats (instead of propagating an error) exactly when
every folder listing it performs succeeds; leaf download and upload failures
never make it abort. -/
theorem processFolder_ok_eq_listOk (env : Env) (t : DriveNode) (pre : String)
    (since : Nat) :
    isOkE (processFolderIncremental env t pre since) = walkListOk env t since := by
  match t with
  | .node i cs =>
    rw [processFolderIncremental, walkListOk]
    cases hlv : env.listFails i.id with
    | true => simp [isOkE]
    | false =>
      by_cases hf : (filteredChildren since cs).length = 0
      · simp only [Bool.false_eq_true, if_false, if_pos hf, Bool.not_false,
          Bool.true_and]
        split
        · split <;> rfl
        · rfl
      · simp only [Bool.false_eq_true, if_false, if_neg hf, Bool.not_false,
          Bool.true_and]
        exact processItems_ok_eq_listOk env cs pre since

/-- Loop version of the abort characterization. -/
theorem processItems_ok_eq_listOk (env : Env) (items : List DriveNode) (pre : String)
    (since : Nat) :
    isOkE (processItems env items pre since) = itemsListOk env items since := by
  match items with
  | [] => rfl
  | c :: rest =>
    rw [processItems, itemsListOk]
    by_cases hp : passesFilter since c = true
    · rw [if_pos hp, if_pos hp]
      by_cases hm : c.item.mimeType = folderMime
      · rw [if_pos hm, if_pos hm]
        have h1 := processFolder_ok_eq_listOk env c (pre ++ c.item.name ++ "/") since
        have h2 := processItems_ok_eq_listOk env rest pre since
        cases hA : processFolderIncremental env c (pre ++ c.item.name ++ "/") since with
        | error e =>
          rw [hA] at h1; simp only [isOkE] at h1
          rw [← h1, Bool.false_and]
          rfl
        | ok v =>
          rw [hA] at h1; simp only [isOkE] at h1
          rw [← h1, Bool.true_and]
          cases hB : processItems env rest pre since with
          | error e =>
            rw [hB] at h2; simp only [isOkE] at h2
            rw [← h2]
            obtain ⟨sv, wv⟩ := v
            rfl
          | ok w =>
            rw [hB] at h2; simp only [isOkE] at h2
            rw [← h2]
            obtain ⟨sv, wv⟩ := v; obtain ⟨sw, ww⟩ := w
            rfl
      · rw [if_neg hm, if_neg hm, Bool.true_and]
        have h2 := processItems_ok_eq_listOk env rest pre since
        cases hB : processItems env rest pre since with
        | error e =>
          rw [hB] at h2; simp only [isOkE] at h2
          rw [← h2]
          rfl
        | ok w =>
          rw [hB] at h2; simp only [isOkE] at h2
          rw [← h2]
          obtain ⟨sw, ww⟩ := w
          cases hD : env.downloadFails c.item.id <;>
            cases hU : env.uploadFails (pre ++ buildObjectNameFromFile c.item.name) <;>
              rfl
    · rw [if_neg hp, if_neg hp]
      exact processItems_ok_eq_listOk env rest pre since

end

theorem Env.rebase_listFails (env : Env) (p : String) :
    (env.rebase p).listFails = env.listFails := rfl

theorem Env.rebase_downloadFails (env : Env) (p : String) :
    (env.rebase p).downloadFails = env.downloadFails := rfl

theorem Env.rebase_uploadFails (env : Env) (p k : String) :
    (env.rebase p).uploadFails k = env.uploadFails (p ++ k) := rfl

theorem mapWrites_ok (p : String) (s : SyncStats) (ws : List String) :
    mapWrites p (.ok (s, ws)) = .ok (s, ws.map (fun k => p ++ k)) := rfl

theorem mapWrites_error (p e : String) :
    mapWrites p (.error e) = .error e := rfl

theorem string_append_assoc (a b c : String) : a ++ b ++ c = a ++ (b ++ c) := by
  obtain ⟨la⟩ := a
  obtain ⟨lb⟩ := b
  obtain ⟨lc⟩ := c
  show String.mk (la ++ lb ++ lc) = String.mk (la ++ (lb ++ lc))
  rw [List.append_assoc]

mutual

/-- Every object key the walk derives depends on the path argument only by
concatenation: walking under path `p ++ q` yields exactly the result of
walking under path `q` with the upload oracle rebased by `p`, with `p`
prepended to every derived key.  Hence the derived keys are a function of
the accumulated ancestor display names and the node-derived suffix alone. -/
theorem processFolder_rebase (env : Env) (p q : String) (t : DriveNode) (since : Nat) :
    processFolderIncremental env t (p ++ q) since =
      mapWrites p (processFolderIncremental (env.rebase p) t q since) := by
  match t with
  | .node i cs =>
    rw [processFolderIncremental]
    conv_rhs => rw [processFolderIncremental]
    simp only [Env.rebase_listFails, Env.rebase_downloadFails, Env.rebase_uploadFails]
    cases hlv : env.listFails i.id with
    | true => rfl
    | false =>
      by_cases hf : (filteredChildren since cs).length = 0
      · by_cases hn : (nonTrashedChildren cs).length = 0
        · simp only [Bool.false_eq_true, if_false, if_pos hf, if_pos hn,
            string_append_assoc]
          by_cases hU : env.uploadFails (p ++ (q ++ "__placeholder")) = true
          · rw [if_pos hU, if_pos hU]
            rfl
          · rw [if_neg hU, if_neg hU]
            rfl
        · simp only [Bool.false_eq_true, if_false, if_pos hf, if_neg hn]
          rfl
      · simp only [Bool.false_eq_true, if_false, if_neg hf]
        exact processItems_rebase env p q cs since

/-- Loop version of the key-compositionality property. -/
theorem processItems_rebase (env : Env) (p q : String) (items : List DriveNode)
    (since : Nat) :
    processItems env items (p ++ q) since =
      mapWrites p (processItems (env.rebase p) items q since) := by
  match items with
  | [] => rfl
  | c :: rest =>
    rw [processItems]
    conv_rhs => rw [processItems]
    simp only [Env.rebase_listFails, Env.rebase_downloadFails, Env.rebase_uploadFails]
    by_cases hp : passesFilter since c = true
    · rw [if_pos hp, if_pos hp]
      by_cases hm : c.item.mimeType = folderMime
      · rw [if_pos hm, if_pos hm]
        have h1 : processFolderIncremental env c (p ++ q ++ c.item.name ++ "/") since =
            mapWrites p
              (processFolderIncremental (env.rebase p) c (q ++ c.item.name ++ "/") since) := by
          rw [show p ++ q ++ c.item.name ++ "/" = p ++ (q ++ c.item.name ++ "/") by
            simp only [string_append_assoc]]
          exact processFolder_rebase env p (q ++ c.item.name ++ "/") c since
        have h2 := processItems_rebase env p q rest since
        rw [h1, h2]
        cases hA : processFolderIncremental (env.rebase p) c (q ++ c.item.name ++ "/") since with
        | error e => rfl
        | ok v =>
          obtain ⟨sv, wv⟩ := v
          cases hB : processItems (env.rebase p) rest q since with
          | error e => rfl
          | ok w =>
            obtain ⟨sw, ww⟩ := w
            simp only [mapWrites, List.map_append]
      · rw [if_neg hm, if_neg hm]
        have h2 := processItems_rebase env p q rest since
        rw [h2]
        cases hB : processItems (env.rebase p) rest q since with
        | error e => rfl
        | ok w =>
          obtain ⟨sw, ww⟩ := w
          simp only [mapWrites_ok, string_append_assoc]
          by_cases hD : env.downloadFails c.item.id = true
          · rw [if_pos hD, if_pos hD]
            rfl
          · rw [if_neg hD, if_neg hD]
            by_cases hU :
                env.uploadFails (p ++ (q ++ buildObjectNameFromFile c.item.name)) = true
            · rw [if_pos hU, if_pos hU]
              rfl
            · rw [if_neg hU, if_neg hU]
              rfl
    · rw [if_neg hp, if_neg hp]
      exact processItems_rebase env p q rest since

end

theorem countP_not_add_countP {α : Type} (p : α → Bool) (l : List α) :
    l.countP (fun a => !p a) + l.countP p = l.length := by
  induction l with
  | nil => rfl
  | cons a l ih =>
    rw [List.countP_cons, List.countP_cons, List.length_cons]
    cases hpa : p a <;> simp [hpa] <;> omega

/-- The item loop over a listing whose filtered items are all leaves returns
stats counting, among the filtered items, the non-throwing ones as `ok` and
the throwing ones as `fail`, visits no folders, and writes exactly the
derived keys of the non-throwing items in order — a failing item never stops
the items after it from being processed. -/
theorem processItems_leaves (env : Env) (pre : String) (since : Nat)
    (items : List DriveNode)
    (h : ∀ c ∈ items, passesFilter since c = true → c.item.mimeType ≠ folderMime) :
    processItems env items pre since =
      .ok (⟨(filteredChildren since items).countP (fun c => !leafFails env pre c),
            (filteredChildren since items).countP (fun c => leafFails env pre c), 0⟩,
           leafWrites env pre (filteredChildren since items)) := by
  induction items with
  | nil => rfl
  | cons c rest ih =>
    have hrest := ih (fun x hx hpx => h x (List.mem_cons_of_mem c hx) hpx)
    rw [processItems]
    by_cases hp : passesFilter since c = true
    · have hm : c.item.mimeType ≠ folderMime := h c (List.mem_cons_self c rest) hp
      rw [if_pos hp, if_neg hm, hrest]
      by_cases hD : env.downloadFails c.item.id = true
      · have hLf : leafFails env pre c = true := by
          simp [leafFails, hD]
        simp [filteredChildren, List.filter_cons, hp, hLf, hD, List.countP_cons,
          leafWrites, List.filterMap_cons, Nat.add_comm]
      · by_cases hU : env.uploadFails (pre ++ buildObjectNameFromFile c.item.name) = true
        · have hLf : leafFails env pre c = true := by
            simp [leafFails, hU]
          simp [filteredChildren, List.filter_cons, hp, hLf, hD, hU, List.countP_cons,
            leafWrites, List.filterMap_cons, Nat.add_comm]
        · have hLf : leafFails env pre c = false := by
            simp [leafFails, hD, hU]
          simp [filteredChildren, List.filter_cons, hp, hLf, hD, hU, List.countP_cons,
            leafWrites, List.filterMap_cons, Nat.add_comm]
    · rw [if_neg hp, hrest]
      simp [filteredChildren, List.filter_cons, hp]

/-- C1, counterexample.  The recursive call for a subfolder is not wrapped
in try/catch, so a listing error arising for a descendant is not caught per
item: here the invoking node's own listing succeeds (first conjunct), yet
the walk propagates the changed subfolder's listing error and aborts,
returning no stats at all — the sibling leaf after the subfolder is never
processed and nothing is counted into fail. -/
theorem C1_counterexample :
    (⟨fun id => id == "idF", fun _ => false, fun _ => false⟩ : Env).listFails "idRoot" =
      false ∧
    processFolderIncremental
      ⟨fun id => id == "idF", fun _ => false, fun _ => false⟩
      (.node ⟨"idRoot", "root", folderMime, 0, false⟩
        [.node ⟨"idF", "F", folderMime, 5, false⟩ [],
         .node ⟨"idB", "b.txt", "text/plain", 5, false⟩ []])
      "" 0 = .error "Drive list error :: idF" :=
  ⟨rfl, rfl⟩

/-- C1, amended.  Failures while fetching or writing a leaf item (or the
placeholder) are caught per item, counted into fail, and never abort the
walk; but store-level listing errors propagate to the caller whether they
occur on the invoking node's own listing or on a descendant folder's listing
reached by recursion: the walk returns stats rather than an error exactly
when every folder listing it performs succeeds. -/
theorem C1_theorem (env : Env) (t : DriveNode) (pre : String) (since : Nat) :
    isOkE (processFolderIncremental env t pre since) = walkListOk env t since :=
  processFolder_ok_eq_listOk env t pre since

/-- C2.  For a folder whose filtered listing consists of leaves only, with
exactly one of them throwing on download or upload, the walk returns stats
with fail = 1 (hence fail ≥ 1) and ok = N - 1 where N is the number of
filtered leaf items, and it writes the derived keys of every non-failing
item — including the items after the failing one, which are therefore still
processed. -/
theorem C2_theorem (env : Env) (i : Item) (cs : List DriveNode) (pre : String)
    (since : Nat)
    (hl : env.listFails i.id = false)
    (hleaf : ∀ c ∈ cs, passesFilter since c = true → c.item.mimeType ≠ folderMime)
    (hone : (filteredChildren since cs).countP (fun c => leafFails env pre c) = 1)
    (hne : ¬(filteredChildren since cs).length = 0) :
    processFolderIncremental env (.node i cs) pre since =
      .ok (⟨(filteredChildren since cs).length - 1, 1, 0⟩,
           leafWrites env pre (filteredChildren since cs)) := by
  have hok : (filteredChildren since cs).countP (fun c => !leafFails env pre c) =
      (filteredChildren since cs).length - 1 := by
    have hsum := countP_not_add_countP (fun c => leafFails env pre c)
      (filteredChildren since cs)
    simp only [] at hsum
    omega
  rw [processFolderIncremental, hl]
  simp only [Bool.false_eq_true, if_false]
  rw [if_neg hne, processItems_leaves env pre since cs hleaf, hok, hone]

/-- C2, witness: three filtered leaves of which exactly the second one
fails; the walk reports ok = 2, fail = 1 and still writes the third item's
key. -/
theorem C2_witness :
    processFolderIncremental
      ⟨fun _ => false, fun id => id == "id2", fun _ => false⟩
      (.node ⟨"idRoot", "root", folderMime, 0, false⟩
        [.node ⟨"id1", "a.txt", "text/plain", 5, false⟩ [],
         .node ⟨"id2", "b.txt", "text/plain", 5, false⟩ [],
         .node ⟨"id3", "c.txt", "text/plain", 5, false⟩ []])
      "" 0 = .ok (⟨2, 1, 0⟩, ["a.txt.pdf", "c.txt.pdf"]) :=
  (C2_theorem
    ⟨fun _ => false, fun id => id == "id2", fun _ => false⟩
    ⟨"idRoot", "root", folderMime, 0, false⟩
    [.node ⟨"id1", "a.txt", "text/plain", 5, false⟩ [],
     .node ⟨"id2", "b.txt", "text/plain", 5, false⟩ [],
     .node ⟨"id3", "c.txt", "text/plain", 5, false⟩ []]
    "" 0 (by decide) (by decide) (by decide) (by decide)).trans (by decide)

/-- C3.  When the invoking node's own listing succeeds and the filtered
listing is empty, the walk writes exactly one placeholder object named
`pathPrefix ++ "__placeholder"` and returns ok = 1 (or fail = 1 when that
single write throws) if the base listing (`trashed = false`, the unfiltered
check `isFolderEmpty` performs) is also empty; otherwise it writes nothing
and returns `{ok := 0, fail := 0, folders := 0}`.  In both cases it never
recurses (no folders visited, no other writes). -/
theorem C3_theorem (env : Env) (i : Item) (cs : List DriveNode) (pre : String)
    (since : Nat)
    (hl : env.listFails i.id = false)
    (hf : (filteredChildren since cs).length = 0) :
    processFolderIncremental env (.node i cs) pre since =
      if (nonTrashedChildren cs).length = 0 then
        (if env.uploadFails (pre ++ "__placeholder") then .ok (⟨0, 1, 0⟩, [])
         else .ok (⟨1, 0, 0⟩, [pre ++ "__placeholder"]))
      else .ok (⟨0, 0, 0⟩, []) := by
  rw [processFolderIncremental, hl]
  simp only [Bool.false_eq_true, if_false, if_pos hf]

/-- C3, witness: a folder with no children at all gets exactly one
placeholder under its path and ok = 1. -/
theorem C3_witness :
    processFolderIncremental
      ⟨fun _ => false, fun _ => false, fun _ => false⟩
      (.node ⟨"idC", "C", folderMime, 0, false⟩ []) "C/" 7 =
      .ok (⟨1, 0, 0⟩, ["C/__placeholder"]) :=
  (C3_theorem ⟨fun _ => false, fun _ => false, fun _ => false⟩
    ⟨"idC", "C", folderMime, 0, false⟩ [] "C/" 7 (by decide) (by decide)).trans
    (by decide)

/-- C4, counterexample.  The walker keeps no state: a second run with the
same `since` over the unchanged tree is the very same invocation as the
first.  Over a tree holding a single leaf modified after `since`, that
second run returns ok = 1 ≠ 0 and re-writes the same object key — the
success does not come from a placeholder, refuting the claim that the
second run yields ok = 0 with nothing re-written. -/
theorem C4_counterexample :
    processFolderIncremental
      ⟨fun _ => false, fun _ => false, fun _ => false⟩
      (.node ⟨"idRoot", "root", folderMime, 0, false⟩
        [.node ⟨"idB", "b.txt", "text/plain", 5, false⟩ []])
      "" 0 = .ok (⟨1, 0, 0⟩, ["b.txt.pdf"]) ∧ (1 : Nat) ≠ 0 :=
  ⟨rfl, by decide⟩

/-- C4, amended.  The walker is a pure function of the tree snapshot,
`since` and the failure oracle, so a second run with the same `since` over
an unchanged tree returns exactly the first run's stats and re-writes
exactly what the first run wrote; its ok is 0 only when the first run's
was.  The claimed property holds precisely for a tree already reconciled
with the watermark: when no direct child of the invoked folder passes the
`modifiedTime > since` filter and the folder is not empty (so no
placeholder check fires), every run — in particular the second — returns
`{ok := 0, fail := 0, folders := 0}` and writes nothing. -/
theorem C4_theorem (env : Env) (i : Item) (cs : List DriveNode) (pre : String)
    (since : Nat)
    (hl : env.listFails i.id = false)
    (hf : (filteredChildren since cs).length = 0)
    (hn : ¬(nonTrashedChildren cs).length = 0) :
    processFolderIncremental env (.node i cs) pre since = .ok (⟨0, 0, 0⟩, []) := by
  rw [processFolderIncremental, hl]
  simp only [Bool.false_eq_true, if_false, if_pos hf, if_neg hn]

/-- C4, witness: a folder whose only child was modified at 3, walked with
since = 5: nothing is re-written and ok = 0. -/
theorem C4_witness :
    processFolderIncremental
      ⟨fun _ => false, fun _ => false, fun _ => false⟩
      (.node ⟨"idRoot", "root", folderMime, 0, false⟩
        [.node ⟨"idB", "b.txt", "text/plain", 3, false⟩ []])
      "" 5 = .ok (⟨0, 0, 0⟩, []) :=
  C4_theorem ⟨fun _ => false, fun _ => false, fun _ => false⟩
    ⟨"idRoot", "root", folderMime, 0, false⟩
    [.node ⟨"idB", "b.txt", "text/plain", 3, false⟩ []]
    "" 5 (by decide) (by decide) (by decide)

/-- C5, counterexample.  The same unchanged leaf `b.txt` nested under
folder `A` gets the key `A/b.txt.pdf` from the full walk (ancestor prefix
plus `.pdf` suffix normalization) but the bare key `b.txt` from the
webhook single-node apply, which uploads under `file.name` with no
ancestor prefix and no suffix normalization — the derived key does depend
on which path computes it. -/
theorem C5_counterexample :
    processFolderIncremental
      ⟨fun _ => false, fun _ => false, fun _ => false⟩
      (.node ⟨"idRoot", "root", folderMime, 0, false⟩
        [.node ⟨"idA", "A", folderMime, 5, false⟩
          [.node ⟨"idB", "b.txt", "text/plain", 5, false⟩ []]])
      "" 0 = .ok (⟨1, 0, 1⟩, ["A/b.txt.pdf"]) ∧
    (processRealTimeChange [] 0 "chg1" ⟨true, fun _ => .ok, false, false⟩
      ⟨"idB", "b.txt", "text/plain", 5, false⟩).1 = [.uploadObject "b.txt"] ∧
    ("A/b.txt.pdf" : String) ≠ "b.txt" :=
  ⟨rfl, rfl, by decide⟩

/-- C5, amended.  Within the recursive walk the derived key is a pure
function of the accumulated path of ancestor display names and the node's
own name and kind: the path argument enters every derived key only as a
concatenated prefix, so walking a subtree under `p ++ q` yields exactly the
walk under `q` (with upload failures keyed compatibly) with `p` prepended
to every key, and two walks of the same unchanged subtree derive identical
keys.  The cross-path half of the original claim is false (see the
counterexample): the webhook single-node apply derives the bare display
name instead. -/
theorem C5_theorem (env : Env) (p q : String) (t : DriveNode) (since : Nat) :
    processFolderIncremental env t (p ++ q) since =
      mapWrites p (processFolderIncremental (env.rebase p) t q since) :=
  processFolder_rebase env p q t since

/-- C6, counterexample.  A polling tick that starts at `tStart = 400000`,
synchronizes one changed file, and commits at `tEnd = 400123` persists
400123 — the time observed after the walk — and not the 400000 captured
before the walk started, refuting the claim that the watermark is advanced
to the pre-walk timestamp. -/
theorem C6_counterexample :
    pollingTick ⟨fun _ => false, fun _ => false, fun _ => false⟩
      (.node ⟨"idRoot", "root", folderMime, 0, false⟩
        [.node ⟨"idB", "b.txt", "text/plain", 200000, false⟩ []])
      0 400000 400123 = 400123 ∧ (400123 : Nat) ≠ 400000 :=
  ⟨rfl, by decide⟩

/-- C6, amended.  When the walk of a polling tick returns stats with
ok > 0, the persisted watermark is advanced to the current time observed at
the commit, after the walk completed (`tEnd`), not to a timestamp captured
before the walk started; when the walk returns ok = 0, or throws, the
watermark is left unchanged. -/
theorem C6_theorem (env : Env) (t : DriveNode) (w tStart tEnd : Nat) :
    (∀ stats ws,
      processFolderIncremental env t "" (pollSince w tStart) = .ok (stats, ws) →
      pollingTick env t w tStart tEnd = if stats.ok > 0 then tEnd else w) ∧
    (∀ e, processFolderIncremental env t "" (pollSince w tStart) = .error e →
      pollingTick env t w tStart tEnd = w) := by
  constructor
  · intro stats ws hw
    rw [pollingTick, hw]
  · intro e hw
    rw [pollingTick, hw]

/-- C6, witness: a tick whose walk uploads one file commits the post-walk
time 400555, and a tick whose walk finds nothing leaves the watermark 0. -/
theorem C6_witness :
    pollingTick ⟨fun _ => false, fun _ => false, fun _ => false⟩
      (.node ⟨"idRoot", "root", folderMime, 0, false⟩
        [.node ⟨"idB", "b.txt", "text/plain", 200000, false⟩ []])
      0 400000 400555 = 400555 :=
  (((C6_theorem ⟨fun _ => false, fun _ => false, fun _ => false⟩
      (.node ⟨"idRoot", "root", folderMime, 0, false⟩
        [.node ⟨"idB", "b.txt", "text/plain", 200000, false⟩ []])
      0 400000 400555).1) ⟨1, 0, 0⟩ ["b.txt.pdf"] (by decide)).trans (by decide)

/-- C7.  The webhook handler rejects a notification whose resource id or
resource state header is missing (or empty, which is equally falsy in the
source) with a single 400 response and schedules no processing; otherwise
its event trace is exactly the 200 acknowledgement followed by the deferred
background processing — the acknowledgement strictly precedes all
processing work. -/
theorem C7_theorem (resourceId resourceState : Option String) :
    ((headerFalsy resourceId || headerFalsy resourceState) = true →
      webhookPost resourceId resourceState = [.respond 400]) ∧
    ((headerFalsy resourceId || headerFalsy resourceState) = false →
      webhookPost resourceId resourceState =
        [.respond 200,
         .scheduleProcessing (resourceId.getD "") (resourceState.getD "")]) := by
  constructor <;> intro h <;> simp [webhookPost, h]

/-- C7, witness: a notification without a resource id is rejected with 400
and nothing else happens; a complete notification is acknowledged with 200
before its processing event. -/
theorem C7_witness :
    webhookPost none (some "change") = [.respond 400] ∧
    webhookPost (some "res1") (some "change") =
      [.respond 200, .scheduleProcessing "res1" "change"] :=
  ⟨(C7_theorem none (some "change")).1 (by decide),
   ((C7_theorem (some "res1") (some "change")).2 (by decide)).trans (by decide)⟩

/-- C8.  For an admitted change whose fetched snapshot is trashed, the
processor issues the delete call keyed by the node's mirror name
(`file.name`, the name the webhook path itself uploads under): when the
delete returns success or not-found the trace is exactly that delete call —
not-found enqueues no retry and counts as no failure — and when the delete
fails otherwise a retry is enqueued.  In every case no upload and no
recursion into the walk occurs for the node. -/
theorem C8_theorem (st : List (String × Nat)) (now : Nat) (changeId : String)
    (env : RTEnv) (file : Item)
    (hadm : hasActive st now changeId = false)
    (hfetch : env.fetchInfoOk = true)
    (htr : file.trashed = true) :
    ((env.deleteOutcome file.name = .ok ∨ env.deleteOutcome file.name = .notFound) →
      (processRealTimeChange st now changeId env file).1 = [.deleteObject file.name]) ∧
    (env.deleteOutcome file.name = .otherError →
      (processRealTimeChange st now changeId env file).1 =
        [.deleteObject file.name, .enqueueRetry]) := by
  constructor
  · rintro (h | h) <;> simp [processRealTimeChange, hadm, hfetch, htr, h]
  · intro h
    simp [processRealTimeChange, hadm, hfetch, htr, h]

/-- C8, witness: a trashed node whose mirror object is already absent (the
delete returns not-found) produces exactly the delete call and nothing
else — no retry, no upload, no recursion. -/
theorem C8_witness :
    (processRealTimeChange [] 5 "c1" ⟨true, fun _ => .notFound, false, false⟩
      ⟨"idG", "gone.txt", "text/plain", 9, true⟩).1 =
      [.deleteObject "gone.txt"] :=
  (C8_theorem [] 5 "c1" ⟨true, fun _ => .notFound, false, false⟩
    ⟨"idG", "gone.txt", "text/plain", 9, true⟩ (by decide) rfl rfl).1 (Or.inr rfl)

theorem processRealTimeChange_state (st : List (String × Nat)) (now : Nat)
    (changeId : String) (env : RTEnv) (file : Item)
    (hadm : hasActive st now changeId = false) :
    (processRealTimeChange st now changeId env file).2 = (changeId, now) :: st := by
  rw [processRealTimeChange, hadm]
  simp only [Bool.false_eq_true, if_false]
  repeat' split
  all_goals rfl

theorem processRealTimeChange_ne_nil (st : List (String × Nat)) (now : Nat)
    (changeId : String) (env : RTEnv) (file : Item)
    (hadm : hasActive st now changeId = false) :
    (processRealTimeChange st now changeId env file).1 ≠ [] := by
  rw [processRealTimeChange, hadm]
  simp only [Bool.false_eq_true, if_false]
  repeat' split
  all_goals simp

theorem processRealTimeChange_suppressed (st : List (String × Nat)) (now : Nat)
    (changeId : String) (env : RTEnv) (file : Item)
    (hadm : hasActive st now changeId = true) :
    processRealTimeChange st now changeId env file = ([], st) := by
  rw [processRealTimeChange, hadm]
  rfl

theorem hasActive_cons_self (st : List (String × Nat)) (now t2 : Nat) (sig : String)
    (h1 : now ≤ t2) (h2 : t2 < now + CHANGE_TTL) :
    hasActive ((sig, now) :: st) t2 sig = true := by
  simp [hasActive, List.any_cons, h1, h2]

theorem hasActive_expired (st : List (String × Nat)) (now t2 : Nat) (sig : String)
    (hpast : ∀ e ∈ st, e.2 ≤ now)
    (hadm : hasActive st now sig = false)
    (ht2 : now + CHANGE_TTL ≤ t2) :
    hasActive ((sig, now) :: st) t2 sig = false := by
  simp only [hasActive, List.any_eq_false, Bool.and_eq_true, beq_iff_eq,
    decide_eq_true_eq, List.mem_cons] at hadm ⊢
  rintro e (rfl | he)
  · rintro ⟨⟨heq, hle⟩, hlt⟩
    omega
  · rintro ⟨⟨heq, hle⟩, hlt⟩
    by_cases hnl : now < e.2 + CHANGE_TTL
    · exact hadm e he ⟨⟨heq, hpast e he⟩, hnl⟩
    · omega

/-- C9.  A change signature not active at time `now` is admitted: the call
processes (nonempty action trace) and records the admission — independent
of the processing outcome, since the source schedules the deletion timer
before the try block.  Every call with the same signature at a time in
`[now, now + CHANGE_TTL)` is suppressed, returning no actions and leaving
the dedup set unchanged; at any time `now + CHANGE_TTL` or later the
admission has expired — the signature is no longer in the effective set,
again regardless of the processing outcome — and a new call with the same
signature is admitted afresh. -/
theorem C9_theorem (st : List (String × Nat)) (now : Nat) (changeId : String)
    (env : RTEnv) (file : Item)
    (hpast : ∀ e ∈ st, e.2 ≤ now)
    (hadm : hasActive st now changeId = false) :
    (processRealTimeChange st now changeId env file).1 ≠ [] ∧
    (processRealTimeChange st now changeId env file).2 = (changeId, now) :: st ∧
    (∀ t2, now ≤ t2 → t2 < now + CHANGE_TTL → ∀ env2 file2,
      processRealTimeChange ((changeId, now) :: st) t2 changeId env2 file2 =
        ([], (changeId, now) :: st)) ∧
    (∀ t2, now + CHANGE_TTL ≤ t2 →
      hasActive ((changeId, now) :: st) t2 changeId = false ∧
      ∀ env2 file2,
        (processRealTimeChange ((changeId, now) :: st) t2 changeId env2 file2).2 =
          (changeId, t2) :: (changeId, now) :: st) := by
  refine ⟨processRealTimeChange_ne_nil st now changeId env file hadm,
    processRealTimeChange_state st now changeId env file hadm, ?_, ?_⟩
  · intro t2 h1 h2 env2 file2
    exact processRealTimeChange_suppressed _ _ _ env2 file2
      (hasActive_cons_self st now t2 changeId h1 h2)
  · intro t2 ht2
    have hexp := hasActive_expired st now t2 changeId hpast hadm ht2
    exact ⟨hexp, fun env2 file2 =>
      processRealTimeChange_state _ _ _ env2 file2 hexp⟩

/-- C9, witness: the signature c9 admitted at time 0 processes; a repeat at
time 100 (inside the five-minute window) is suppressed with the set
unchanged; at time 300000 the admission has expired and a repeat is
admitted again. -/
theorem C9_witness :
    (processRealTimeChange [] 0 "c9" ⟨true, fun _ => .ok, false, false⟩
      ⟨"idB", "b.txt", "text/plain", 5, false⟩).1 ≠ [] ∧
    processRealTimeChange [("c9", 0)] 100 "c9" ⟨true, fun _ => .ok, false, false⟩
      ⟨"idB", "b.txt", "text/plain", 5, false⟩ = ([], [("c9", 0)]) ∧
    hasActive [("c9", 0)] 300000 "c9" = false := by
  have h := C9_theorem [] 0 "c9" ⟨true, fun _ => .ok, false, false⟩
    ⟨"idB", "b.txt", "text/plain", 5, false⟩ (by simp) (by decide)
  exact ⟨h.1,
    h.2.2.1 100 (by decide) (by decide) ⟨true, fun _ => .ok, false, false⟩
      ⟨"idB", "b.txt", "text/plain", 5, false⟩,
    (h.2.2.2 300000 (by decide)).1⟩

/-- C10.  A thrown read of the persisted watermark is caught inside
`getLastSyncTime`, which returns the epoch floor 2000-01-01T00:00:00.000Z
instead of propagating the error — the same value it returns when no sync
has ever completed (no stored document), so the following sync walks the
entire history as if starting from scratch. -/
theorem C10_theorem (e : String) :
    getLastSyncTime (.error e) = EPOCH_FLOOR ∧
    getLastSyncTime (.error e) = getLastSyncTime (.ok none) :=
  ⟨rfl, rfl⟩
